import Mathlib

/-!
# Verification of the hooked-form form-state engine

Shallow embedding of `src/Form.tsx` (the form component of hooked-form) and of
the path/emitter helpers it imports, together with proofs of the spec claims.

Field paths are modelled as lists of segments (`Path`); value / error / touched
trees are nested string-keyed trees (`Tree`).  The React component's state is a
`FormState`; each store operation is a function returning the new state together
with the list of paths published on the notification bus, and the submission
machine additionally records callback invocations as events.
-/

namespace HookedForm

/-- A field path, as its list of segments ("address.street" ↦ ["address", "street"]). -/
abbrev Path := List String

mutual
/-- A nested value tree: either a scalar leaf or a keyed container.
Models the plain JS objects that hold `values` / `errors` / `touched`. -/
inductive Tree (α : Type) where
  | leaf : α → Tree α
  | node : Forest α → Tree α
  deriving DecidableEq

/-- The children of a container node: an association list of keyed subtrees. -/
inductive Forest (α : Type) where
  | nil : Forest α
  | cons : String → Tree α → Forest α → Forest α
  deriving DecidableEq
end

/-- The empty container, the JS `EMPTY_OBJ = {}`. -/
def emptyTree {α : Type} : Tree α := .node .nil

mutual
/-- Modelled from the spec: `deriveKeys` (src/helpers/deriveKeys, not under
src/): flattens a tree into the list of its leaf paths, depth-first. -/
def deriveKeys {α : Type} : Tree α → List Path
  | .leaf _ => [[]]
  | .node f => deriveKeysF f
termination_by structural t => t

/-- Leaf paths of every subtree of a forest, each prefixed with its key. -/
def deriveKeysF {α : Type} : Forest α → List Path
  | .nil => []
  | .cons k t f => (deriveKeys t).map (fun p => k :: p) ++ deriveKeysF f
termination_by structural f => f
end

mutual
/-- Modelled from the spec: `deriveInitial` (src/helpers/deriveInitial, not
under src/): a tree of the same shape as the input with `c` at every leaf
(turns an error shape into an all-touched map). -/
def deriveInitial {α β : Type} : Tree α → β → Tree β
  | .leaf _, c => .leaf c
  | .node f, c => .node (deriveInitialF f c)
termination_by structural t _ => t

/-- `deriveInitial` mapped over a forest. -/
def deriveInitialF {α β : Type} : Forest α → β → Forest β
  | .nil, _ => .nil
  | .cons k t f, c => .cons k (deriveInitial t c) (deriveInitialF f c)
termination_by structural f _ => f
end

/-- The subtree stored under key `k` in a forest, if any. -/
def findF {α : Type} (k : String) : Forest α → Option (Tree α)
  | .nil => none
  | .cons k' t f => if k' = k then some t else findF k f

/-- Leaf lookup: the scalar stored at exactly path `p`, if any.  Models the
spec's `get` restricted to leaves (missing segments yield `undefined`). -/
def getT {α : Type} : Tree α → Path → Option α
  | .leaf v, [] => some v
  | .node _, [] => none
  | .leaf _, _ :: _ => none
  | .node f, k :: p =>
    match findF k f with
    | some t => getT t p
    | none => none
termination_by structural _ p => p

/-- Replaces the entry under key `k` with `g` of the present subtree (or of the
empty container when absent, appending the new entry), reusing siblings. -/
def updF {α : Type} (k : String) (g : Tree α → Tree α) : Forest α → Forest α
  | .nil => .cons k (g emptyTree) .nil
  | .cons k' t f => if k' = k then .cons k (g t) f else .cons k' t (updF k g f)

/-- Modelled from the spec: `set` (src/helpers/operations, not under src/):
returns a new tree with `v` placed at `p`, creating intermediate containers as
needed and replacing any scalar found along the way; siblings are reused. -/
def setT {α : Type} : Tree α → Path → α → Tree α
  | _, [], v => .leaf v
  | .leaf _, k :: p, v => .node (updF k (fun t => setT t p v) .nil)
  | .node f, k :: p, v => .node (updF k (fun t => setT t p v) f)
termination_by structural _ p _ => p

/-- The sentinel key `'s'` published on every submitting-state change
(`emit('s')` in Form.tsx). -/
def sKey : Path := ["s"]

/-- The sentinel key `'f'` published when the form-level error changes
(`emit('f')` in Form.tsx). -/
def fKey : Path := ["f"]

/-- The state held by one mounted `Form` instance: the five `useState` slots of
Form.tsx plus the `isDirty` ref. -/
structure FormState (V : Type) where
  values : Tree V
  touched : Tree Bool
  errors : Tree String
  isSubmitting : Bool
  formError : Option String
  isDirty : Bool
  deriving DecidableEq

/-- The caller-supplied configuration of `Form` (`FormOptions` in Form.tsx).
The submit callback is modelled by the outcome it settles to on given values
(`.ok r` for a synchronous return or resolved promise, `.error e` for a throw
or rejection); the optional success / error hooks are modelled by their
presence, with their invocations recorded as events. -/
structure Config (V R E : Type) where
  initialValues : Option (Tree V)
  initialErrors : Option (Tree String)
  validate : Option (Tree V → Option (Tree String))
  shouldSubmitWhenInvalid : Bool
  validateOnBlur : Option Bool
  validateOnChange : Bool
  onSubmitOutcome : Tree V → Except E R
  hasOnSuccess : Bool
  hasOnError : Bool

/-- The state right after mounting: the `useState` initialisers of Form.tsx. -/
def initState {V R E : Type} (cfg : Config V R E) : FormState V where
  values := cfg.initialValues.getD emptyTree
  touched := (cfg.initialErrors.map (deriveInitial · true)).getD emptyTree
  errors := cfg.initialErrors.getD emptyTree
  isSubmitting := false
  formError := none
  isDirty := false

/-- `(validate && validate(values)) || EMPTY_OBJ` of `validateForm`:
the configured validator's result on the current values, or the empty tree
when the validator is absent or returns nothing. -/
def validationResult {V R E : Type} (cfg : Config V R E) (s : FormState V) :
    Tree String :=
  match cfg.validate with
  | some f => (f s.values).getD emptyTree
  | none => emptyTree

/-- `validateForm` of Form.tsx: stores the validator's result as `errors`,
publishes the leaf paths of the new error tree followed by those of the
previous one, and returns the new error tree. -/
def validateForm {V R E : Type} (cfg : Config V R E) (s : FormState V) :
    (FormState V × List Path) × Tree String :=
  let ve := validationResult cfg s
  (({s with errors := ve}, deriveKeys ve ++ deriveKeys s.errors), ve)

/-- `resetForm` of Form.tsx: clears the dirty ref, restores `values` to the
initial values, reseeds `touched` / `errors` from `initialErrors` when that
was supplied, and publishes the leaf paths of the restored values followed by
those of the old values. -/
def resetForm {V R E : Type} (cfg : Config V R E) (s : FormState V) :
    FormState V × List Path :=
  let newVals := cfg.initialValues.getD emptyTree
  let s1 := {s with isDirty := false, values := newVals}
  let s2 := match cfg.initialErrors with
    | some ie => {s1 with touched := deriveInitial ie true, errors := ie}
    | none => s1
  (s2, deriveKeys newVals ++ deriveKeys s.values)

/-- `change` of Form.tsx (also exposed as `setFieldValue`): marks the form
dirty, places the value at the field's path, and publishes that path. -/
def change {V : Type} (p : Path) (v : V) (s : FormState V) :
    FormState V × List Path :=
  ({s with isDirty := true, values := setT s.values p v}, [p])

/-- `setFieldError` of the produced context: stores an error at the field's
path and publishes that path. -/
def setFieldError {V : Type} (p : Path) (err : String) (s : FormState V) :
    FormState V × List Path :=
  ({s with errors := setT s.errors p err}, [p])

/-- `setFieldTouched` of the produced context: marks the field touched
(defaulting to `true` when no flag is passed) and publishes its path. -/
def setFieldTouched {V : Type} (p : Path) (v : Option Bool) (s : FormState V) :
    FormState V × List Path :=
  ({s with touched := setT s.touched p (v.getD true)}, [p])

/-- The raw `setErrors` state setter handed to the submit callback and to the
error hook inside their bags: replaces the error tree and publishes nothing. -/
def setErrorsRaw {V : Type} (e : Tree String) (s : FormState V) :
    FormState V × List Path :=
  ({s with errors := e}, [])

/-- `setFormErr` of `handleSubmit`: stores the form-level error message and
publishes the form-error sentinel `'f'`. -/
def setFormErr {V : Type} (msg : String) (s : FormState V) :
    FormState V × List Path :=
  ({s with formError := some msg}, [fKey])

/-- The `SuccessBag` passed to the success hook: exposes `resetForm`. -/
structure SuccessBag (V : Type) where
  resetForm : FormState V → FormState V × List Path

/-- The `ErrorBag` passed to the error hook: exposes `setErrors` and
`setFormError`. -/
structure ErrorBag (V : Type) where
  setErrors : Tree String → FormState V → FormState V × List Path
  setFormError : String → FormState V → FormState V × List Path

/-- The `CallBag` passed to the submit callback: exposes `setErrors` and
`setFormError`. -/
structure CallBag (V : Type) where
  setErrors : Tree String → FormState V → FormState V × List Path
  setFormError : String → FormState V → FormState V × List Path

/-- One observable event of the submission machine: a bus publication, or the
invocation of a caller-supplied callback with its arguments. -/
inductive Ev (V R E : Type) where
  | pub : Path → Ev V R E
  | callOnSubmit : Tree V → CallBag V → Ev V R E
  | callOnSuccess : R → SuccessBag V → Ev V R E
  | callOnError : E → ErrorBag V → Ev V R E

/-- `handleSubmit` of Form.tsx: runs validation, replaces `touched` with the
all-true map of the error shape, blocks when invalid submission is disallowed
and an error leaf exists (publishing the submitting sentinel), and otherwise
invokes the submit callback and settles: on either outcome it clears
`isSubmitting`, publishes the sentinel, then invokes the matching hook when
supplied. -/
def handleSubmit {V R E : Type} (cfg : Config V R E) (s : FormState V) :
    FormState V × List (Ev V R E) :=
  let vr := validateForm cfg s
  let fieldErrors := vr.2
  let s2 := {vr.1.1 with touched := deriveInitial fieldErrors true}
  if !cfg.shouldSubmitWhenInvalid && decide (0 < (deriveKeys fieldErrors).length) then
    ({s2 with isSubmitting := false}, vr.1.2.map .pub ++ [.pub sKey])
  else
    let bag : CallBag V := ⟨setErrorsRaw, setFormErr⟩
    match cfg.onSubmitOutcome s.values with
    | .ok r =>
      ({s2 with isSubmitting := false},
        vr.1.2.map .pub ++ [.callOnSubmit s.values bag, .pub sKey] ++
          (if cfg.hasOnSuccess then [.callOnSuccess r ⟨resetForm cfg⟩] else []))
    | .error e =>
      ({s2 with isSubmitting := false},
        vr.1.2.map .pub ++ [.callOnSubmit s.values bag, .pub sKey] ++
          (if cfg.hasOnError then [.callOnError e ⟨setErrorsRaw, setFormErr⟩]
           else []))

/-- `submit` of Form.tsx: sets `isSubmitting` and publishes the sentinel. -/
def submit {V R E : Type} (s : FormState V) : FormState V × List (Ev V R E) :=
  ({s with isSubmitting := true}, [.pub sKey])

/-- A submit trigger together with the `[isSubmitting]` effect that drives the
submission pass: React re-runs that effect only when `isSubmitting` actually
changed between renders (`setSubmitting(true)` on an already-true flag bails
out), so `handleSubmit` runs exactly when the flag was previously false. -/
def submitAndEffect {V R E : Type} (cfg : Config V R E) (s : FormState V) :
    FormState V × List (Ev V R E) :=
  let t := submit (V := V) (R := R) (E := E) s
  if s.isSubmitting then t
  else
    let h := handleSubmit cfg t.1
    (h.1, t.2 ++ h.2)

/-- The slice of one render's data that the automatic re-validation effect of
Form.tsx reads: the `touched` and `values` state and the dirty ref. -/
structure RenderSnap (V : Type) where
  touched : Tree Bool
  values : Tree V
  dirty : Bool

/-- First dependency of the re-validation effect:
`validateOnBlur === undefined ? touched : validateOnBlur && touched`.
`none` stands for the constant falsy value the expression takes when
`validateOnBlur` is `false`. -/
def blurDep {V R E : Type} (cfg : Config V R E) (snap : RenderSnap V) :
    Option (Tree Bool) :=
  match cfg.validateOnBlur with
  | some false => none
  | _ => some snap.touched

/-- Second dependency of the re-validation effect: `validateOnChange && values`;
`none` stands for the constant falsy value taken when `validateOnChange` is
falsy. -/
def changeDep {V R E : Type} (cfg : Config V R E) (snap : RenderSnap V) :
    Option (Tree V) :=
  if cfg.validateOnChange then some snap.values else none

/-- The dependency array of the re-validation effect of Form.tsx. -/
def validationDeps {V R E : Type} (cfg : Config V R E) (snap : RenderSnap V) :
    Option (Tree Bool) × Option (Tree V) × Bool :=
  (blurDep cfg snap, changeDep cfg snap, snap.dirty)

/-- The guard inside the re-validation effect:
`(validateOnBlur === undefined || validateOnChange || validateOnBlur) && isDirty.current`. -/
def validationCond {V R E : Type} (cfg : Config V R E) (dirty : Bool) : Bool :=
  (match cfg.validateOnBlur with
   | none => true
   | some b => cfg.validateOnChange || b) && dirty

/-- The automatic re-validation fires between two consecutive renders exactly
when the effect's dependency array changed (React re-runs it then) and the
guard holds on the new render. -/
def validationEffectFires {V R E : Type} (cfg : Config V R E)
    (prev cur : RenderSnap V) : Prop :=
  validationDeps cfg prev ≠ validationDeps cfg cur ∧
    validationCond cfg cur.dirty = true

/-- One externally triggered operation on a form instance: the context's
mutations, a reset (explicit, from the success hook, or from
re-initialisation), a manual validation, a submit trigger with its effect,
and the bag operations reachable inside the submit / error callbacks. -/
inductive Op (V : Type) where
  | changeOp : Path → V → Op V
  | touchOp : Path → Option Bool → Op V
  | errorOp : Path → String → Op V
  | resetOp : Op V
  | validateOp : Op V
  | submitOp : Op V
  | errorsOp : Tree String → Op V
  | formErrorOp : String → Op V

/-- Applies one operation to the form state (dropping the published paths). -/
def stepOp {V R E : Type} (cfg : Config V R E) (s : FormState V) :
    Op V → FormState V
  | .changeOp p v => (change p v s).1
  | .touchOp p b => (setFieldTouched p b s).1
  | .errorOp p e => (setFieldError p e s).1
  | .resetOp => (resetForm cfg s).1
  | .validateOp => (validateForm cfg s).1.1
  | .submitOp => (submitAndEffect cfg s).1
  | .errorsOp e => (setErrorsRaw e s).1
  | .formErrorOp m => (setFormErr m s).1

/-- Runs a sequence of operations from a given state. -/
def runOps {V R E : Type} (cfg : Config V R E) (s : FormState V)
    (ops : List (Op V)) : FormState V :=
  ops.foldl (stepOp cfg) s

/-- Is this operation a value change (`changeField` / `setFieldValue`)? -/
def isChangeOp {V : Type} : Op V → Bool
  | .changeOp _ _ => true
  | _ => false

/-- Is this operation a `resetForm`? -/
def isResetOp {V : Type} : Op V → Bool
  | .resetOp => true
  | _ => false

/-- At least one value-change mutation occurs in `ops` after its last
`resetForm` (or after the start, when no reset follows it). -/
def changedSinceReset {V : Type} (ops : List (Op V)) : Prop :=
  ∃ l₁ p v l₂, ops = l₁ ++ Op.changeOp p v :: l₂ ∧
    ∀ op ∈ l₂, isResetOp op = false

/-- Is this event an invocation of the caller's submit callback? -/
def isSubmitCall {V R E : Type} : Ev V R E → Bool
  | .callOnSubmit _ _ => true
  | _ => false

/-- Is this event an invocation of the caller's success hook? -/
def isSuccessCall {V R E : Type} : Ev V R E → Bool
  | .callOnSuccess _ _ => true
  | _ => false

/-- Is this event an invocation of the caller's error hook? -/
def isErrorCall {V R E : Type} : Ev V R E → Bool
  | .callOnError _ _ => true
  | _ => false

/-- The validator of the spec's blocked-submission scenario:
`v => (v.age < 0 ? {age: "invalid"} : \x7b\x7d)`. -/
def ageValidator (v : Tree Int) : Option (Tree String) :=
  match getT v ["age"] with
  | some n =>
    if n < 0 then some (.node (.cons "age" (.leaf "invalid") .nil))
    else some emptyTree
  | none => some emptyTree

/-- The configuration of the spec's blocked-submission scenario. -/
def csConfig : Config Int String String where
  initialValues := none
  initialErrors := none
  validate := some ageValidator
  shouldSubmitWhenInvalid := false
  validateOnBlur := none
  validateOnChange := false
  onSubmitOutcome := fun _ => .ok "ok"
  hasOnSuccess := false
  hasOnError := false

/-- The state after `changeField("age", -1)` on a fresh instance of the
blocked-submission scenario. -/
def csChanged : FormState Int := (change ["age"] (-1) (initState csConfig)).1

/-- The state while a submission is in flight: the submit trigger has set
`isSubmitting` and the pass has not settled yet. -/
def csTriggered : FormState Int :=
  (submit (R := String) (E := String) csChanged).1

/-- A configuration whose submit callback rejects with `"network down"` and
which supplies an error hook. -/
def ceConfig : Config Int String String where
  initialValues := none
  initialErrors := none
  validate := none
  shouldSubmitWhenInvalid := false
  validateOnBlur := none
  validateOnChange := false
  onSubmitOutcome := fun _ => .error "network down"
  hasOnSuccess := false
  hasOnError := true

/-- The blocked-submission configuration with blur-validation switched off. -/
def c8OffConfig : Config Int String String :=
  {csConfig with validateOnBlur := some false}

/-- A dirty render snapshot with nothing touched. -/
def snapA : RenderSnap Int := ⟨emptyTree, emptyTree, true⟩

/-- A dirty render snapshot in which the `age` field became touched. -/
def snapB : RenderSnap Int :=
  ⟨.node (.cons "age" (.leaf true) .nil), emptyTree, true⟩

/-- A state carrying a stale touched mark on `other` and no errors. -/
def staleTouched : FormState Int :=
  {csTriggered with
    touched := Tree.node (Forest.cons "other" (Tree.leaf true) Forest.nil)
    values := emptyTree}

/-- The rejecting configuration's state right after the submit trigger. -/
def ceTriggered : FormState Int :=
  (submit (R := String) (E := String) (initState ceConfig)).1

/-- A configuration supplying both `initialValues` and an `initialErrors`
seed. -/
def ciConfig : Config Int String String where
  initialValues := some (Tree.node (Forest.cons "age" (Tree.leaf 5) Forest.nil))
  initialErrors := some (Tree.node (Forest.cons "age" (Tree.leaf "req") Forest.nil))
  validate := none
  shouldSubmitWhenInvalid := false
  validateOnBlur := none
  validateOnChange := false
  onSubmitOutcome := fun _ => .ok "ok"
  hasOnSuccess := false
  hasOnError := false

/-- The seeded instance after an edit of the `name` field. -/
def ciChanged : FormState Int := (change ["name"] 7 (initState ciConfig)).1

/-- `findF` commutes with `deriveInitialF`. -/
theorem findF_deriveInitialF {α β : Type} (c : β) (k : String) :
    ∀ f : Forest α,
      findF k (deriveInitialF f c) = (findF k f).map (fun t => deriveInitial t c)
  | .nil => rfl
  | .cons k' t f => by
    simp only [deriveInitialF, findF]
    by_cases h : k' = k <;> simp [h, findF_deriveInitialF c k f]

/-- `deriveInitial` preserves the shape of the tree: leaf lookup in the
derived tree succeeds exactly where it succeeds in the source, yielding the
constant. -/
theorem getT_deriveInitial {α β : Type} (c : β) :
    ∀ (p : Path) (t : Tree α),
      getT (deriveInitial t c) p = (getT t p).map (fun _ => c)
  | [], .leaf _ => rfl
  | [], .node _ => rfl
  | _ :: _, .leaf _ => rfl
  | k :: p, .node f => by
    simp only [deriveInitial, getT, findF_deriveInitialF c k f]
    cases findF k f with
    | none => rfl
    | some t => simpa using getT_deriveInitial c p t

/-- A subtree found under key `k` contributes all its leaf paths, prefixed
with `k`, to the forest's leaf paths. -/
theorem mem_deriveKeysF_of_findF {α : Type} (k : String) :
    ∀ (f : Forest α) (t : Tree α), findF k f = some t →
      ∀ p, p ∈ deriveKeys t → (k :: p) ∈ deriveKeysF f
  | .nil, t => fun h => by simp [findF] at h
  | .cons k' t' f, t => fun h p hp => by
    simp only [deriveKeysF, List.mem_append, List.mem_map]
    by_cases hk : k' = k
    · subst hk
      simp only [findF, if_true, eq_self_iff_true, Option.some.injEq] at h
      subst h
      exact Or.inl ⟨p, hp, rfl⟩
    · simp only [findF, if_neg hk] at h
      exact Or.inr (mem_deriveKeysF_of_findF k f t h p hp)

/-- Every path where leaf lookup succeeds is one of the tree's leaf paths. -/
theorem mem_deriveKeys_of_getT {α : Type} :
    ∀ (p : Path) (t : Tree α) (v : α), getT t p = some v → p ∈ deriveKeys t
  | [], .leaf _, _ => fun _ => by simp [deriveKeys]
  | [], .node _, _ => fun h => by simp [getT] at h
  | _ :: _, .leaf _, _ => fun h => by simp [getT] at h
  | k :: p, .node f, v => fun h => by
    simp only [getT] at h
    cases hf : findF k f with
    | none => rw [hf] at h; exact absurd h (by simp)
    | some t =>
      rw [hf] at h
      exact mem_deriveKeysF_of_findF k f t hf p (mem_deriveKeys_of_getT p t v h)


/-- C4: for every field path `p` and value `v`, `changeField(p, v)` sets
`isDirty = true`, replaces `values` with `set(values, p, v)`, leaves the rest
of the state unchanged, and publishes exactly the single path `p`. -/
theorem claim_C4 {V : Type} (p : Path) (v : V) (s : FormState V) :
    (change p v s).1.isDirty = true ∧
    (change p v s).1.values = setT s.values p v ∧
    (change p v s).1.touched = s.touched ∧
    (change p v s).1.errors = s.errors ∧
    (change p v s).2 = [p] ∧
    ∀ q, q ∈ (change p v s).2 ↔ q = p :=
  ⟨rfl, rfl, rfl, rfl, rfl, fun q => by simp [change]⟩

/-- C5: `validateForm` stores the validator's result on the current values —
or the empty tree when the validator is absent or returns nothing — as
`errors`, publishes the union of the leaf paths of the new and the previous
error trees, and returns the new error tree to its caller. -/
theorem claim_C5 {V R E : Type} (cfg : Config V R E) (s : FormState V) :
    (validateForm cfg s).2 = validationResult cfg s ∧
    (validateForm cfg s).1.1.errors = validationResult cfg s ∧
    (∀ f, cfg.validate = some f →
      validationResult cfg s = (f s.values).getD emptyTree) ∧
    (cfg.validate = none → validationResult cfg s = emptyTree) ∧
    ∀ q, q ∈ (validateForm cfg s).1.2 ↔
      q ∈ deriveKeys (validationResult cfg s) ∨ q ∈ deriveKeys s.errors := by
  refine ⟨rfl, rfl, ?_, ?_, ?_⟩
  · intro f hf
    simp [validationResult, hf]
  · intro hf
    simp [validationResult, hf]
  · intro q
    simp [validateForm]

/-- C10: when no `initialErrors` was supplied, `resetForm` leaves `errors` and
`touched` (and the submitting flag and the form error) exactly as they were:
only `values` and `isDirty` are reset, and the value-path notifications are
published. -/
theorem claim_C10 {V R E : Type} (cfg : Config V R E) (s : FormState V)
    (h : cfg.initialErrors = none) :
    (resetForm cfg s).1.touched = s.touched ∧
    (resetForm cfg s).1.errors = s.errors ∧
    (resetForm cfg s).1.isSubmitting = s.isSubmitting ∧
    (resetForm cfg s).1.formError = s.formError ∧
    (resetForm cfg s).1.values = cfg.initialValues.getD emptyTree ∧
    (resetForm cfg s).1.isDirty = false ∧
    (resetForm cfg s).2 =
      deriveKeys (cfg.initialValues.getD emptyTree) ++ deriveKeys s.values := by
  simp [resetForm, h]

/-- Witness for C10 at the blocked-submission scenario's configuration and
edited state. -/
theorem claim_C10_witness :
    csConfig.initialErrors = none ∧
    (resetForm csConfig csChanged).1.touched = csChanged.touched ∧
    (resetForm csConfig csChanged).1.errors = csChanged.errors ∧
    (resetForm csConfig csChanged).1.values = emptyTree ∧
    (resetForm csConfig csChanged).1.isDirty = false :=
  ⟨rfl, (claim_C10 csConfig csChanged rfl).1,
    (claim_C10 csConfig csChanged rfl).2.1,
    (claim_C10 csConfig csChanged rfl).2.2.2.2.1,
    (claim_C10 csConfig csChanged rfl).2.2.2.2.2.1⟩

/-- C6: `resetForm` clears `isDirty`, restores `values` to the initial values,
reseeds `touched` / `errors` from `initialErrors` when that seed was supplied,
and publishes the union of the leaf paths of the old and the restored values,
which covers every path whose leaf value differs between the two. -/
theorem claim_C6 {V R E : Type} (cfg : Config V R E) (s : FormState V) :
    (resetForm cfg s).1.isDirty = false ∧
    (resetForm cfg s).1.values = cfg.initialValues.getD emptyTree ∧
    (∀ ie, cfg.initialErrors = some ie →
      (resetForm cfg s).1.touched = deriveInitial ie true ∧
      (resetForm cfg s).1.errors = ie) ∧
    (∀ q, q ∈ (resetForm cfg s).2 ↔
      q ∈ deriveKeys (cfg.initialValues.getD emptyTree) ∨
        q ∈ deriveKeys s.values) ∧
    ∀ q, getT s.values q ≠ getT (resetForm cfg s).1.values q →
      q ∈ (resetForm cfg s).2 := by
  have hd : (resetForm cfg s).1.isDirty = false := by
    rcases h : cfg.initialErrors with _ | ie <;> simp [resetForm, h]
  have hv : (resetForm cfg s).1.values = cfg.initialValues.getD emptyTree := by
    rcases h : cfg.initialErrors with _ | ie <;> simp [resetForm, h]
  have hm : ∀ q, q ∈ (resetForm cfg s).2 ↔
      q ∈ deriveKeys (cfg.initialValues.getD emptyTree) ∨
        q ∈ deriveKeys s.values := by
    intro q
    simp [resetForm]
  refine ⟨hd, hv, ?_, hm, ?_⟩
  · intro ie h
    constructor <;> simp [resetForm, h]
  · intro q hne
    rw [hv] at hne
    rcases hx : getT s.values q with _ | v
    · rcases hy : getT (cfg.initialValues.getD emptyTree) q with _ | w
      · rw [hx, hy] at hne
        exact absurd rfl hne
      · exact (hm q).mpr (Or.inl (mem_deriveKeys_of_getT q _ w hy))
    · exact (hm q).mpr (Or.inr (mem_deriveKeys_of_getT q _ v hx))

/-- Witness for C6 at a configuration carrying both initial values and an
`initialErrors` seed, from an edited state. -/
theorem claim_C6_witness :
    (resetForm ciConfig ciChanged).1.isDirty = false ∧
    (resetForm ciConfig ciChanged).1.values =
      Tree.node (Forest.cons "age" (Tree.leaf 5) Forest.nil) ∧
    (resetForm ciConfig ciChanged).1.touched =
      Tree.node (Forest.cons "age" (Tree.leaf true) Forest.nil) ∧
    (resetForm ciConfig ciChanged).1.errors =
      Tree.node (Forest.cons "age" (Tree.leaf "req") Forest.nil) ∧
    ["name"] ∈ (resetForm ciConfig ciChanged).2 :=
  ⟨(claim_C6 ciConfig ciChanged).1,
    ((claim_C6 ciConfig ciChanged).2.1).trans (by decide),
    (((claim_C6 ciConfig ciChanged).2.2.1 _ rfl).1).trans (by decide),
    ((claim_C6 ciConfig ciChanged).2.2.1 _ rfl).2,
    (claim_C6 ciConfig ciChanged).2.2.2.2 ["name"] (by decide)⟩

/-- A blocked submission attempt in closed form: when invalid submission is
disallowed and validation produced at least one error leaf, `handleSubmit`
stores the error tree, derives the all-touched map, clears the submitting
flag, and publishes the validation paths followed by the sentinel. -/
theorem handleSubmit_blocked {V R E : Type} (cfg : Config V R E)
    (s : FormState V) (h1 : cfg.shouldSubmitWhenInvalid = false)
    (h2 : 0 < (deriveKeys (validationResult cfg s)).length) :
    handleSubmit cfg s =
      ({s with
          errors := validationResult cfg s
          touched := deriveInitial (validationResult cfg s) true
          isSubmitting := false},
        (deriveKeys (validationResult cfg s) ++ deriveKeys s.errors).map .pub
          ++ [.pub sKey]) := by
  have hc : (!cfg.shouldSubmitWhenInvalid &&
      decide (0 < (deriveKeys (validationResult cfg s)).length)) = true := by
    rw [h1]
    simpa using h2
  simp only [handleSubmit, validateForm]
  rw [if_pos]
  exact hc

/-- C2: with `shouldSubmitWhenInvalid` falsy, a submission attempt whose
validation yields an error tree with at least one leaf stores that tree as
`errors`, marks every erroring field touched, clears `isSubmitting`,
publishes the submitting-state sentinel, and never invokes the submit
callback. -/
theorem claim_C2 {V R E : Type} (cfg : Config V R E) (s : FormState V)
    (h1 : cfg.shouldSubmitWhenInvalid = false)
    (h2 : 0 < (deriveKeys (validationResult cfg s)).length) :
    (handleSubmit cfg s).1.errors = validationResult cfg s ∧
    (handleSubmit cfg s).1.touched =
      deriveInitial (validationResult cfg s) true ∧
    (∀ q e, getT (validationResult cfg s) q = some e →
      getT (handleSubmit cfg s).1.touched q = some true) ∧
    (handleSubmit cfg s).1.isSubmitting = false ∧
    Ev.pub sKey ∈ (handleSubmit cfg s).2 ∧
    ∀ ev ∈ (handleSubmit cfg s).2, isSubmitCall ev = false := by
  rw [handleSubmit_blocked cfg s h1 h2]
  refine ⟨rfl, rfl, ?_, rfl, ?_, ?_⟩
  · intro q e hq
    rw [getT_deriveInitial, hq]
    rfl
  · simp
  · intro ev hev
    simp only [List.mem_append, List.mem_map, List.mem_singleton] at hev
    rcases hev with ⟨p, -, rfl⟩ | rfl <;> rfl

/-- Witness for C2: the spec's scenario — validator flagging a negative
`age`, `changeField("age", -1)`, then a submission attempt. -/
theorem claim_C2_witness :
    csConfig.shouldSubmitWhenInvalid = false ∧
    0 < (deriveKeys (validationResult csConfig csTriggered)).length ∧
    (handleSubmit csConfig csTriggered).1.errors =
      Tree.node (Forest.cons "age" (Tree.leaf "invalid") Forest.nil) ∧
    (handleSubmit csConfig csTriggered).1.touched =
      Tree.node (Forest.cons "age" (Tree.leaf true) Forest.nil) ∧
    (handleSubmit csConfig csTriggered).1.isSubmitting = false ∧
    ∀ ev ∈ (handleSubmit csConfig csTriggered).2, isSubmitCall ev = false := by
  have h := claim_C2 csConfig csTriggered rfl (by decide)
  exact ⟨rfl, by decide, h.1.trans (by decide), h.2.1.trans (by decide),
    h.2.2.2.1, h.2.2.2.2.2⟩

/-- A non-blocked submission attempt in closed form: validation paths are
published, the submit callback is invoked with the current values and the
call bag, the submitting flag is cleared and the sentinel published, and the
hook matching the outcome is invoked when supplied. -/
theorem handleSubmit_settled {V R E : Type} (cfg : Config V R E)
    (s : FormState V)
    (hnb : (!cfg.shouldSubmitWhenInvalid &&
      decide (0 < (deriveKeys (validationResult cfg s)).length)) = false) :
    handleSubmit cfg s =
      ({s with
          errors := validationResult cfg s
          touched := deriveInitial (validationResult cfg s) true
          isSubmitting := false},
        (deriveKeys (validationResult cfg s) ++ deriveKeys s.errors).map .pub
          ++ [.callOnSubmit s.values ⟨setErrorsRaw, setFormErr⟩, .pub sKey]
          ++ match cfg.onSubmitOutcome s.values with
             | .ok r =>
               if cfg.hasOnSuccess then [.callOnSuccess r ⟨resetForm cfg⟩]
               else []
             | .error e =>
               if cfg.hasOnError
               then [.callOnError e ⟨setErrorsRaw, setFormErr⟩]
               else []) := by
  simp only [handleSubmit, validateForm]
  rw [if_neg (by simp [hnb])]
  cases cfg.onSubmitOutcome s.values <;> rfl

/-- C3: whatever the submit callback's outcome (return, resolution, throw, or
rejection), `handleSubmit` handles it totally: it clears `isSubmitting`,
publishes the submitting-state sentinel, and only then invokes the matching
hook when supplied — the success hook with the result and a bag exposing
`resetForm`, the error hook with the error and a bag exposing `setErrors` and
`setFormError`. -/
theorem claim_C3 {V R E : Type} (cfg : Config V R E) (s : FormState V)
    (h : cfg.shouldSubmitWhenInvalid = true ∨
      (deriveKeys (validationResult cfg s)).length = 0) :
    (handleSubmit cfg s).1.isSubmitting = false ∧
    (∀ r, cfg.onSubmitOutcome s.values = .ok r →
      (handleSubmit cfg s).2 =
        ((deriveKeys (validationResult cfg s) ++ deriveKeys s.errors).map .pub
            ++ [.callOnSubmit s.values ⟨setErrorsRaw, setFormErr⟩, .pub sKey])
          ++ (if cfg.hasOnSuccess then [.callOnSuccess r ⟨resetForm cfg⟩]
              else [])) ∧
    (∀ e, cfg.onSubmitOutcome s.values = .error e →
      (handleSubmit cfg s).2 =
        ((deriveKeys (validationResult cfg s) ++ deriveKeys s.errors).map .pub
            ++ [.callOnSubmit s.values ⟨setErrorsRaw, setFormErr⟩, .pub sKey])
          ++ (if cfg.hasOnError
              then [.callOnError e ⟨setErrorsRaw, setFormErr⟩]
              else [])) := by
  have hnb : (!cfg.shouldSubmitWhenInvalid &&
      decide (0 < (deriveKeys (validationResult cfg s)).length)) = false := by
    rcases h with h | h <;> simp [h]
  rw [handleSubmit_settled cfg s hnb]
  refine ⟨rfl, ?_, ?_⟩
  · intro r hr
    rw [hr]
  · intro e he
    rw [he]

/-- Witness for C3: a submit callback rejecting with "network down" routed to
the supplied error hook, after the submitting flag was cleared and the
sentinel published. -/
theorem claim_C3_witness :
    ceConfig.onSubmitOutcome ceTriggered.values = .error "network down" ∧
    (handleSubmit ceConfig ceTriggered).1.isSubmitting = false ∧
    (handleSubmit ceConfig ceTriggered).2 =
      ([.callOnSubmit ceTriggered.values ⟨setErrorsRaw, setFormErr⟩,
          .pub sKey]
        ++ [.callOnError "network down" ⟨setErrorsRaw, setFormErr⟩]) := by
  have h := claim_C3 ceConfig ceTriggered (Or.inr rfl)
  exact ⟨rfl, h.1, (h.2.2 "network down" rfl).trans rfl⟩

/-- C9: every run of `handleSubmit` — blocked or not — replaces the touched
tree wholesale with the all-true map derived from the freshly computed error
tree, so a field with no current validation error is no longer marked
touched afterwards. -/
theorem claim_C9 {V R E : Type} (cfg : Config V R E) (s : FormState V) :
    (handleSubmit cfg s).1.touched =
      deriveInitial (validationResult cfg s) true ∧
    ∀ q, getT (validationResult cfg s) q = none →
      getT (handleSubmit cfg s).1.touched q = none := by
  have ht : (handleSubmit cfg s).1.touched =
      deriveInitial (validationResult cfg s) true := by
    simp only [handleSubmit, validateForm]
    split
    · rfl
    · cases cfg.onSubmitOutcome s.values <;> rfl
  refine ⟨ht, ?_⟩
  intro q hq
  rw [ht, getT_deriveInitial, hq]
  rfl

/-- Witness for C9: a stale touched mark on `other` disappears after a
submission attempt whose validation reports no error for it. -/
theorem claim_C9_witness :
    getT staleTouched.touched ["other"] = some true ∧
    getT (validationResult csConfig staleTouched) ["other"] = none ∧
    getT (handleSubmit csConfig staleTouched).1.touched ["other"] = none :=
  ⟨by decide, by decide,
    (claim_C9 csConfig staleTouched).2 ["other"] (by decide)⟩

/-- C1 counterexample: with a submission already in flight, a second
`submit()` call still publishes the submitting sentinel `'s'`, so the claim
that the second call produces no subscriber notification is false on the
code. -/
theorem claim_C1_cex :
    csTriggered.isSubmitting = true ∧
    (submitAndEffect csConfig csTriggered).2 = [Ev.pub sKey] ∧
    (submitAndEffect csConfig csTriggered).2 ≠ [] := by
  refine ⟨rfl, rfl, ?_⟩
  intro hemp
  rw [show (submitAndEffect csConfig csTriggered).2 = [Ev.pub sKey] from rfl]
    at hemp
  exact List.cons_ne_nil _ _ hemp

/-- C1 (amended): a second `submit()` while a submission is in flight leaves
the `FormState` unchanged and does not start a second submission pass (the
`[isSubmitting]` effect sees no transition), but it still publishes the
submitting sentinel `'s'` each time. -/
theorem claim_C1 {V R E : Type} (cfg : Config V R E) (s : FormState V)
    (h : s.isSubmitting = true) :
    (submitAndEffect cfg s).1 = s ∧
    (submitAndEffect cfg s).2 = [Ev.pub sKey] := by
  have hs : {s with isSubmitting := true} = s := by
    cases s
    simp_all
  simp [submitAndEffect, submit, h, hs]

/-- Witness for C1 (amended) at the in-flight scenario state. -/
theorem claim_C1_witness :
    csTriggered.isSubmitting = true ∧
    (submitAndEffect csConfig csTriggered).1 = csTriggered :=
  ⟨rfl, (claim_C1 csConfig csTriggered rfl).1⟩

/-- C8: the re-validation trigger treats blur- and change-validation as two
independent toggles, with blur-validation enabled by default: it fires on
touched changes unless `validateOnBlur` is explicitly `false`, fires on
values changes when `validateOnChange` is `true`, never fires when
`validateOnBlur` is `false` and `validateOnChange` is falsy, and in every
case fires only on a dirty form. -/
theorem claim_C8 {V R E : Type} (cfg : Config V R E) :
    (∀ prev cur : RenderSnap V, cfg.validateOnBlur ≠ some false →
      prev.touched ≠ cur.touched → cur.dirty = true →
      validationEffectFires cfg prev cur) ∧
    (∀ prev cur : RenderSnap V, cfg.validateOnChange = true →
      prev.values ≠ cur.values → cur.dirty = true →
      validationEffectFires cfg prev cur) ∧
    (∀ prev cur : RenderSnap V, cfg.validateOnBlur = some false →
      cfg.validateOnChange = false → ¬ validationEffectFires cfg prev cur) ∧
    (∀ prev cur : RenderSnap V, cur.dirty = false →
      ¬ validationEffectFires cfg prev cur) := by
  refine ⟨?_, ?_, ?_, ?_⟩
  · intro prev cur hb ht hd
    refine ⟨fun hdeps => ht ?_, ?_⟩
    · have h1 := congrArg Prod.fst hdeps
      rcases hvb : cfg.validateOnBlur with _ | b
      · simpa [validationDeps, blurDep, hvb] using h1
      · cases b
        · exact absurd hvb hb
        · simpa [validationDeps, blurDep, hvb] using h1
    · rcases hvb : cfg.validateOnBlur with _ | b
      · simp [validationCond, hvb, hd]
      · cases b
        · exact absurd hvb hb
        · simp [validationCond, hvb, hd]
  · intro prev cur hc hv hd
    refine ⟨fun hdeps => hv ?_, ?_⟩
    · have h2 := congrArg (fun d => d.2.1) hdeps
      simpa [validationDeps, changeDep, hc] using h2
    · rcases hvb : cfg.validateOnBlur with _ | b <;>
        simp [validationCond, hvb, hc, hd]
  · intro prev cur hb hc
    rintro ⟨-, hcond⟩
    simp [validationCond, hb, hc] at hcond
  · intro prev cur hd
    rintro ⟨-, hcond⟩
    simp [validationCond, hd] at hcond

/-- Witness for C8: with default blur-validation a touched change on a dirty
form fires re-validation; with `validateOnBlur: false` and no
change-validation it does not. -/
theorem claim_C8_witness :
    snapA.touched ≠ snapB.touched ∧
    validationEffectFires csConfig snapA snapB ∧
    ¬ validationEffectFires c8OffConfig snapA snapB :=
  ⟨by decide, (claim_C8 csConfig).1 snapA snapB (by decide) (by decide) rfl,
    (claim_C8 c8OffConfig).2.2.1 snapA snapB rfl rfl⟩

/-- `handleSubmit` never touches the dirty ref. -/
theorem handleSubmit_isDirty {V R E : Type} (cfg : Config V R E)
    (s : FormState V) : (handleSubmit cfg s).1.isDirty = s.isDirty := by
  simp only [handleSubmit, validateForm]
  split
  · rfl
  · cases cfg.onSubmitOutcome s.values <;> rfl

/-- How one operation transforms the dirty ref: a value change sets it, a
reset clears it, everything else leaves it alone. -/
theorem stepOp_isDirty {V R E : Type} (cfg : Config V R E) (s : FormState V)
    (op : Op V) :
    (stepOp cfg s op).isDirty =
      if isChangeOp op then true
      else if isResetOp op then false
      else s.isDirty := by
  cases op with
  | changeOp p v => rfl
  | touchOp p b => rfl
  | errorOp p e => rfl
  | resetOp =>
    simp only [stepOp, resetForm, isChangeOp, isResetOp]
    rcases cfg.initialErrors with _ | ie <;> rfl
  | validateOp => rfl
  | submitOp =>
    simp only [stepOp, submitAndEffect, submit]
    split
    · rfl
    · exact handleSubmit_isDirty cfg _
  | errorsOp e => rfl
  | formErrorOp m => rfl

/-- No operation sequence of length zero contains a change. -/
theorem changedSinceReset_nil {V : Type} :
    ¬ changedSinceReset ([] : List (Op V)) := by
  rintro ⟨l₁, p, v, l₂, h, -⟩
  have hlen := congrArg List.length h
  simp only [List.length_nil, List.length_append, List.length_cons] at hlen
  omega

/-- Peeling one operation off the front of `changedSinceReset`. -/
theorem changedSinceReset_cons {V : Type} (op : Op V) (ops : List (Op V)) :
    changedSinceReset (op :: ops) ↔
      ((∃ p v, op = Op.changeOp p v) ∧ ∀ o ∈ ops, isResetOp o = false) ∨
        changedSinceReset ops := by
  constructor
  · rintro ⟨l₁, p, v, l₂, h, hnr⟩
    cases l₁ with
    | nil =>
      rw [List.nil_append] at h
      cases h
      exact Or.inl ⟨⟨p, v, rfl⟩, hnr⟩
    | cons o l₁' =>
      rw [List.cons_append] at h
      cases h
      exact Or.inr ⟨l₁', p, v, l₂, rfl, hnr⟩
  · rintro (⟨⟨p, v, rfl⟩, hnr⟩ | ⟨l₁, p, v, l₂, rfl, hnr⟩)
    · exact ⟨[], p, v, ops, rfl, hnr⟩
    · exact ⟨op :: l₁, p, v, l₂, rfl, hnr⟩

/-- The dirty ref after a run from an arbitrary state: dirty iff a change
occurred after the last reset, or the start state was dirty and no reset
occurred at all. -/
theorem runOps_isDirty_char {V R E : Type} (cfg : Config V R E) :
    ∀ (ops : List (Op V)) (s : FormState V),
      ((runOps cfg s ops).isDirty = true ↔
        changedSinceReset ops ∨
          (s.isDirty = true ∧ ∀ op ∈ ops, isResetOp op = false))
  | [], s => by
    simp [runOps, changedSinceReset_nil]
  | op :: ops, s => by
    have ih := runOps_isDirty_char cfg ops (stepOp cfg s op)
    simp only [runOps, List.foldl_cons] at ih ⊢
    rw [ih, changedSinceReset_cons, stepOp_isDirty]
    cases op <;>
      simp [isChangeOp, isResetOp, List.forall_mem_cons] <;>
      tauto

/-- C7: in every reachable state, `isDirty` is true iff at least one
value-change mutation occurred since construction or since the most recent
`resetForm`. -/
theorem claim_C7 {V R E : Type} (cfg : Config V R E) (ops : List (Op V)) :
    (runOps cfg (initState cfg) ops).isDirty = true ↔
      changedSinceReset ops := by
  rw [runOps_isDirty_char]
  simp [initState]

/-- Witness for C7: a single `changeField` leaves the form dirty, and a
subsequent `resetForm` clears it again. -/
theorem claim_C7_witness :
    (runOps csConfig (initState csConfig)
      [Op.changeOp ["age"] (-1)]).isDirty = true ∧
    ¬ (runOps csConfig (initState csConfig)
      [Op.changeOp ["age"] (-1), Op.resetOp]).isDirty = true :=
  ⟨(claim_C7 csConfig [Op.changeOp ["age"] (-1)]).mpr
      ⟨[], ["age"], -1, [], rfl, by simp⟩,
    fun h => by
      have hc := (claim_C7 csConfig
        [Op.changeOp ["age"] (-1), Op.resetOp]).mp h
      rw [changedSinceReset_cons, changedSinceReset_cons] at hc
      simpa [isResetOp, changedSinceReset_nil] using hc⟩

/-- Witness for C4: editing `age` on a fresh instance marks the form dirty
and publishes exactly that path. -/
theorem claim_C4_witness :
    (change ["age"] (-1) (initState csConfig)).1.isDirty = true ∧
    (change ["age"] (-1) (initState csConfig)).2 = [["age"]] :=
  ⟨(claim_C4 ["age"] (-1) (initState csConfig)).1,
    (claim_C4 ["age"] (-1) (initState csConfig)).2.2.2.2.1⟩

/-- Witness for C5: validating the edited scenario state stores the `age`
error and publishes its path. -/
theorem claim_C5_witness :
    csConfig.validate = some ageValidator ∧
    validationResult csConfig csChanged =
      Tree.node (Forest.cons "age" (Tree.leaf "invalid") Forest.nil) ∧
    (validateForm csConfig csChanged).1.1.errors =
      validationResult csConfig csChanged ∧
    ["age"] ∈ (validateForm csConfig csChanged).1.2 :=
  ⟨rfl,
    ((claim_C5 csConfig csChanged).2.2.1 ageValidator rfl).trans (by decide),
    (claim_C5 csConfig csChanged).2.1,
    ((claim_C5 csConfig csChanged).2.2.2.2 ["age"]).mpr (Or.inl (by decide))⟩

end HookedForm
